import Mathlib

/-!
Verification of the queued job processor loop
(`core/lib/queued_job_processor/src/lib.rs`).

The Rust code is an async trait `JobProcessor` with a default `run` loop and
a default `wait_for_task` supervisor.  We embed both shallowly:

* The external world is an `Env`: for each loop iteration `n` it gives the
  value of the stop signal observed at the iteration's checkpoint
  (`stop n`, from `*stop_receiver.borrow()`), the result of the `n`-th call
  to `get_next_job` (`nextJob n`), and — when that call returned a job —
  the behaviour of the spawned task: how many supervisor polls find it
  unfinished (`finishDelay n`), and its terminal result (`taskResult n`,
  `Except.ok artifacts` for a normal return, `Except.error msg` when the
  task panicked; the `String` is the message that
  `try_extract_panic_message` (a `zksync_utils` helper outside this crate)
  extracts from the `JoinError`).

* Executing `run` produces a trace of observable events (stop-signal reads,
  `get_next_job` calls, sleeps, `save_result` / `save_failure` calls) plus
  an exit reason.  The Rust `while` loop can run forever, so the embedding
  takes a `fuel` bound on the number of loop iterations; exhausting fuel is
  reported as `ExitReason.outOfFuel` and is not a behaviour of the code.

Every task is modelled as finishing after finitely many polls
(`finishDelay`); a job that hangs forever keeps the real loop inside
`wait_for_task` indefinitely, in which case the loop never returns at all.
-/

namespace QueuedJobProcessor

/-- Observable events of one `run` invocation.  `checkStop` records the value
read from the stop receiver; `claim` records one call to `get_next_job`
together with the value of `iterations_left` at that moment and the returned
job id (if any); `sleep` is one `sleep(POLLING_INTERVAL_MS)`; `saveResult` /
`saveFailure` record the persistence calls. -/
inductive Event (JobId Artifacts : Type) where
  | checkStop (observed : Bool)
  | claim (budget : Option Nat) (result : Option JobId)
  | sleep
  | saveResult (id : JobId) (artifacts : Artifacts)
  | saveFailure (id : JobId) (message : String)
deriving DecidableEq, Repr

/-- The environment a `run` invocation interacts with, indexed by the loop
iteration number. -/
structure Env (JobId Job Artifacts : Type) where
  stop : Nat → Bool
  nextJob : Nat → Option (JobId × Job)
  finishDelay : Nat → Nat
  taskResult : Nat → Except String Artifacts

/-- Embedding of `JobProcessor::wait_for_task` for one supervised task: the
inner loop polls `task.is_finished()`; each poll that finds the task
unfinished sleeps one polling interval (`delay` such polls happen), and once
the task is finished its `Result` is matched — `Ok(data)` leads to one
`save_result` call, `Err(error)` to one `save_failure` call with the
extracted panic message — after which the loop breaks. -/
def wait_for_task {JobId Artifacts : Type} (job_id : JobId) (delay : Nat)
    (result : Except String Artifacts) : List (Event JobId Artifacts) :=
  List.replicate delay .sleep ++
    match result with
    | .ok data => [.saveResult job_id data]
    | .error msg => [.saveFailure job_id msg]

/-- Why a `run` invocation ended.  The first three correspond to the three
`return`/fall-through paths of the Rust loop; `outOfFuel` is an artefact of
the bounded embedding. -/
inductive ExitReason where
  | stopSignal
  | noWork
  | budgetExhausted
  | outOfFuel
deriving DecidableEq, Repr

/-- Embedding of the loop guard `iterations_left.map_or(true, |i| i > 0)`. -/
def budgetAllows : Option Nat → Bool
  | none => true
  | some i => decide (0 < i)

/-- Embedding of the body of `JobProcessor::run`, starting at iteration `n`
with the current `iterations_left`, bounded by `fuel` loop iterations.
Mirrors the source line by line: the `while` guard is `budgetAllows`; then
the stop receiver is read and a set signal returns; then `get_next_job` is
called; on `Some` the budget is decremented by `Option.map (· - 1)`, the
task is spawned and `wait_for_task` supervises it, then the loop repeats;
on `None` a bounded run returns while an unbounded run sleeps one polling
interval and repeats. -/
def runAux {JobId Job Artifacts : Type} (env : Env JobId Job Artifacts) :
    Nat → Option Nat → Nat → List (Event JobId Artifacts) × ExitReason
  | _, _, 0 => ([], .outOfFuel)
  | n, iterations_left, fuel + 1 =>
    if budgetAllows iterations_left then
      if env.stop n then
        ([.checkStop true], .stopSignal)
      else
        match env.nextJob n with
        | some (job_id, _job) =>
          let rest := runAux env (n + 1) (iterations_left.map (· - 1)) fuel
          (.checkStop false :: .claim iterations_left (some job_id) ::
            (wait_for_task job_id (env.finishDelay n) (env.taskResult n) ++ rest.1),
           rest.2)
        | none =>
          if iterations_left.isSome then
            ([.checkStop false, .claim iterations_left none], .noWork)
          else
            let rest := runAux env (n + 1) iterations_left fuel
            (.checkStop false :: .claim iterations_left none :: .sleep :: rest.1, rest.2)
    else
      ([], .budgetExhausted)

/-- Embedding of `JobProcessor::run`: start at iteration 0. -/
def run {JobId Job Artifacts : Type} (env : Env JobId Job Artifacts)
    (iterations_left : Option Nat) (fuel : Nat) :
    List (Event JobId Artifacts) × ExitReason :=
  runAux env 0 iterations_left fuel

/-- An event is a call to `get_next_job` (regardless of its result). -/
def isClaimCall {JobId Artifacts : Type} : Event JobId Artifacts → Bool
  | .claim _ _ => true
  | _ => false

/-- An event is a successful claim (a `get_next_job` call returning a job). -/
def isDispatch {JobId Artifacts : Type} : Event JobId Artifacts → Bool
  | .claim _ (some _) => true
  | _ => false

/-- An event is a persisted outcome (`save_result` or `save_failure`). -/
def isOutcome {JobId Artifacts : Type} : Event JobId Artifacts → Bool
  | .saveResult _ _ => true
  | .saveFailure _ _ => true
  | _ => false

/-- An event is a read of the stop signal. -/
def isStopCheck {JobId Artifacts : Type} : Event JobId Artifacts → Bool
  | .checkStop _ => true
  | _ => false

/-- Scanning check that claims and outcomes strictly alternate: `pending`
says a dispatched job is currently unresolved.  A `get_next_job` call is
allowed only while no job is unresolved; a dispatch makes a job pending; an
outcome is allowed only while a job is pending and resolves it; at the end
of the trace no job may remain unresolved. -/
def sequentialClaims {JobId Artifacts : Type} :
    Bool → List (Event JobId Artifacts) → Bool
  | pending, [] => !pending
  | pending, .claim _ r :: rest => !pending && sequentialClaims r.isSome rest
  | pending, .saveResult _ _ :: rest => pending && sequentialClaims false rest
  | pending, .saveFailure _ _ :: rest => pending && sequentialClaims false rest
  | pending, .checkStop _ :: rest => sequentialClaims pending rest
  | pending, .sleep :: rest => sequentialClaims pending rest

/-- Scanning check that the stop signal is never read while a dispatched job
is unresolved. -/
def noStopWhileSupervising {JobId Artifacts : Type} :
    Bool → List (Event JobId Artifacts) → Bool
  | _, [] => true
  | pending, .checkStop _ :: rest => !pending && noStopWhileSupervising pending rest
  | _, .claim _ r :: rest => noStopWhileSupervising r.isSome rest
  | _, .saveResult _ _ :: rest => noStopWhileSupervising false rest
  | _, .saveFailure _ _ :: rest => noStopWhileSupervising false rest
  | pending, .sleep :: rest => noStopWhileSupervising pending rest

/-- The sequence of `iterations_left` values recorded at the successive
`get_next_job` calls of a trace, in order. -/
def claimBudgets {JobId Artifacts : Type} : List (Event JobId Artifacts) → List (Option Nat)
  | [] => []
  | .claim b _ :: rest => b :: claimBudgets rest
  | _ :: rest => claimBudgets rest

/-- A concrete environment whose backlog always has a claimable job: job ids
are the iteration numbers, every task finishes immediately and succeeds. -/
def envAlwaysJobs : Env Nat Unit Nat where
  stop := fun _ => false
  nextJob := fun n => some (n, ())
  finishDelay := fun _ => 0
  taskResult := fun n => .ok n

/-- A concrete environment whose backlog is always empty and whose stop
signal is never set. -/
def envEmpty : Env Nat Unit Nat where
  stop := fun _ => false
  nextJob := fun _ => none
  finishDelay := fun _ => 0
  taskResult := fun n => .ok n

/-- A concrete environment whose stop signal is set from the start. -/
def envStopped : Env Nat Unit Nat where
  stop := fun _ => true
  nextJob := fun n => some (n, ())
  finishDelay := fun _ => 0
  taskResult := fun n => .ok n

/-- A concrete environment whose first job's task panics after one
unfinished poll. -/
def envPanics : Env Nat Unit Nat where
  stop := fun _ => false
  nextJob := fun n => some (n, ())
  finishDelay := fun _ => 1
  taskResult := fun _ => .error "boom"

/-! ## Helper lemmas -/

lemma filter_isOutcome_replicate_sleep {JobId Artifacts : Type} (d : Nat) :
    (List.replicate d (Event.sleep : Event JobId Artifacts)).filter isOutcome = [] := by
  induction d with
  | zero => rfl
  | succ k ih => simp [List.replicate_succ, List.filter_cons, isOutcome, ih]

lemma countP_isOutcome_replicate_sleep {JobId Artifacts : Type} (d : Nat) :
    (List.replicate d (Event.sleep : Event JobId Artifacts)).countP isOutcome = 0 := by
  induction d with
  | zero => rfl
  | succ k ih => simp [List.replicate_succ, List.countP_cons, isOutcome, ih]

lemma sequentialClaims_replicate_sleep {JobId Artifacts : Type} (p : Bool) (d : Nat)
    (l : List (Event JobId Artifacts)) :
    sequentialClaims p (List.replicate d Event.sleep ++ l) = sequentialClaims p l := by
  induction d with
  | zero => rfl
  | succ k ih => simp [List.replicate_succ, sequentialClaims, ih]

lemma sequentialClaims_wait_for_task {JobId Artifacts : Type} (job_id : JobId) (d : Nat)
    (r : Except String Artifacts) (l : List (Event JobId Artifacts)) :
    sequentialClaims true (wait_for_task job_id d r ++ l) = sequentialClaims false l := by
  unfold wait_for_task
  cases r <;> simp [List.append_assoc, sequentialClaims_replicate_sleep, sequentialClaims]

lemma noStop_replicate_sleep {JobId Artifacts : Type} (p : Bool) (d : Nat)
    (l : List (Event JobId Artifacts)) :
    noStopWhileSupervising p (List.replicate d Event.sleep ++ l) =
      noStopWhileSupervising p l := by
  induction d with
  | zero => rfl
  | succ k ih => simp [List.replicate_succ, noStopWhileSupervising, ih]

lemma noStop_wait_for_task {JobId Artifacts : Type} (job_id : JobId) (d : Nat)
    (r : Except String Artifacts) (l : List (Event JobId Artifacts)) :
    noStopWhileSupervising true (wait_for_task job_id d r ++ l) =
      noStopWhileSupervising false l := by
  unfold wait_for_task
  cases r <;> simp [List.append_assoc, noStop_replicate_sleep, noStopWhileSupervising]

lemma claim_not_mem_wait_for_task {JobId Artifacts : Type} {b : Option Nat}
    {r : Option JobId} {job_id : JobId} {d : Nat} {res : Except String Artifacts} :
    Event.claim b r ∉ wait_for_task job_id d res := by
  intro h
  unfold wait_for_task at h
  rcases List.mem_append.mp h with h' | h'
  · exact absurd (List.eq_of_mem_replicate h') (by simp)
  · cases res <;> simp at h'

lemma countP_isDispatch_wait_for_task {JobId Artifacts : Type} (job_id : JobId) (d : Nat)
    (res : Except String Artifacts) :
    (wait_for_task job_id d res).countP isDispatch = 0 := by
  rw [List.countP_eq_zero]
  intro e he
  unfold wait_for_task at he
  rcases List.mem_append.mp he with h' | h'
  · rw [List.eq_of_mem_replicate h']; simp [isDispatch]
  · cases res <;> simp at h' <;> rw [h'] <;> simp [isDispatch]

lemma runAux_sequentialClaims {JobId Job Artifacts : Type} (env : Env JobId Job Artifacts) :
    ∀ (fuel n : Nat) (il : Option Nat),
      sequentialClaims false (runAux env n il fuel).1 = true := by
  intro fuel
  induction fuel with
  | zero => intro n il; rfl
  | succ f ih =>
    intro n il
    by_cases hb : budgetAllows il
    · by_cases hs : env.stop n
      · simp [runAux, hb, hs, sequentialClaims]
      · rcases hj : env.nextJob n with _ | ⟨job_id, job⟩
        · by_cases hsome : il.isSome
          · simp [runAux, hb, hs, hj, hsome, sequentialClaims]
          · simp [runAux, hb, hs, hj, hsome, sequentialClaims, ih]
        · simp [runAux, hb, hs, hj, sequentialClaims,
            sequentialClaims_wait_for_task, ih]
    · simp [runAux, hb, sequentialClaims]

lemma runAux_noStop {JobId Job Artifacts : Type} (env : Env JobId Job Artifacts) :
    ∀ (fuel n : Nat) (il : Option Nat),
      noStopWhileSupervising false (runAux env n il fuel).1 = true := by
  intro fuel
  induction fuel with
  | zero => intro n il; rfl
  | succ f ih =>
    intro n il
    by_cases hb : budgetAllows il
    · by_cases hs : env.stop n
      · simp [runAux, hb, hs, noStopWhileSupervising]
      · rcases hj : env.nextJob n with _ | ⟨job_id, job⟩
        · by_cases hsome : il.isSome
          · simp [runAux, hb, hs, hj, hsome, noStopWhileSupervising]
          · simp [runAux, hb, hs, hj, hsome, noStopWhileSupervising, ih]
        · simp [runAux, hb, hs, hj, noStopWhileSupervising,
            noStop_wait_for_task, ih]
    · simp [runAux, hb, noStopWhileSupervising]

/-! ## Claim theorems -/

/-- Claim C1: for every claimed job, `wait_for_task` persists exactly one
outcome before returning to the run loop: its trace contains exactly one
`save_result`/`save_failure` event, and that event is `save_result` with the
task's artifacts when the task completed normally, and `save_failure` when
the task terminated abnormally — never both, never neither. -/
theorem wait_for_task_exactly_one_outcome {JobId Artifacts : Type} (job_id : JobId)
    (delay : Nat) (result : Except String Artifacts) :
    (wait_for_task job_id delay result).countP isOutcome = 1 ∧
    (wait_for_task job_id delay result).filter isOutcome =
      (match result with
       | .ok data => [Event.saveResult job_id data]
       | .error msg => [Event.saveFailure job_id msg]) := by
  unfold wait_for_task
  cases result <;>
    simp [List.countP_append, List.filter_append, List.countP_cons, List.filter_cons,
      countP_isOutcome_replicate_sleep, filter_isOutcome_replicate_sleep, isOutcome]

/-- Claim C2: in every trace of `run`, claims and outcomes strictly
alternate: `get_next_job` is never called while a previously claimed job is
unresolved, every dispatched job is resolved by exactly one outcome before
the next claim call, and no claimed job is left unresolved at the end of the
trace — at most one claimed job is in flight at any time. -/
theorem run_claims_strictly_sequential {JobId Job Artifacts : Type}
    (env : Env JobId Job Artifacts) (il : Option Nat) (fuel : Nat) :
    sequentialClaims false (run env il fuel).1 = true :=
  runAux_sequentialClaims env fuel 0 il

/-- Claim C8: the stop signal is read only while no claimed job is
unresolved — never between a job's dispatch and the persistence of its
outcome — and (second conjunct) every dispatched job still reaches exactly
one persisted outcome before the trace ends, so a job in flight when the
signal becomes set is resolved before the loop stops; the signal only
prevents subsequent claims. -/
theorem run_stop_not_observed_in_flight {JobId Job Artifacts : Type}
    (env : Env JobId Job Artifacts) (il : Option Nat) (fuel : Nat) :
    noStopWhileSupervising false (run env il fuel).1 = true ∧
    sequentialClaims false (run env il fuel).1 = true :=
  ⟨runAux_noStop env fuel 0 il, runAux_sequentialClaims env fuel 0 il⟩

/-- Claim C4: invoking `run` with a fixed budget of zero returns immediately
with an empty trace — no stop-signal read, no `get_next_job` call, no
sleep — because the `while` guard fails before the loop body ever runs. -/
theorem run_budget_zero_returns_immediately {JobId Job Artifacts : Type}
    (env : Env JobId Job Artifacts) (fuel : Nat) (h : 0 < fuel) :
    run env (some 0) fuel = ([], ExitReason.budgetExhausted) := by
  cases fuel with
  | zero => exact absurd h (by simp)
  | succ f => simp [run, runAux, budgetAllows]

theorem run_budget_zero_witness :
    0 < 1 ∧ run envEmpty (some 0) 1 = ([], ExitReason.budgetExhausted) :=
  ⟨by decide, run_budget_zero_returns_immediately envEmpty 1 (by decide)⟩

/-- Claim C7: at the start of every loop iteration (the budget guard having
passed), the stop signal is read before any claim attempt, and if it reads
true the loop returns at once: the iteration's whole trace is the single
stop-signal read — in particular zero `get_next_job` calls are made from
that point on. -/
theorem run_stop_checked_before_claim {JobId Job Artifacts : Type}
    (env : Env JobId Job Artifacts) (n fuel : Nat) (il : Option Nat)
    (hb : budgetAllows il = true) (hs : env.stop n = true) :
    runAux env n il (fuel + 1) = ([Event.checkStop true], ExitReason.stopSignal) ∧
    (runAux env n il (fuel + 1)).1.countP isClaimCall = 0 := by
  constructor <;> simp [runAux, hb, hs, List.countP_cons, isClaimCall]

theorem run_stop_checked_before_claim_witness :
    (budgetAllows none = true ∧ envStopped.stop 0 = true) ∧
    (runAux envStopped 0 none 1 = ([Event.checkStop true], ExitReason.stopSignal) ∧
      (runAux envStopped 0 none 1).1.countP isClaimCall = 0) :=
  ⟨⟨by decide, by decide⟩,
    run_stop_checked_before_claim envStopped 0 0 none (by decide) (by decide)⟩

/-- Claim C6: when `get_next_job` returns no job at iteration `n`, the two
budget modes diverge: with a still-positive fixed budget `some i` the loop
returns immediately (trace: the stop read and the empty claim — no sleep, no
further claims, exit `noWork`), while with the unbounded budget `none` it
sleeps one polling interval and retries (the trace continues with the next
iteration and the exit reason is that of the continuation). -/
theorem run_empty_backlog_branches {JobId Job Artifacts : Type}
    (env : Env JobId Job Artifacts) (n fuel i : Nat)
    (hs : env.stop n = false) (hj : env.nextJob n = none) (hi : 0 < i) :
    runAux env n (some i) (fuel + 1) =
      ([Event.checkStop false, Event.claim (some i) none], ExitReason.noWork) ∧
    runAux env n none (fuel + 1) =
      (Event.checkStop false :: Event.claim none none :: Event.sleep ::
        (runAux env (n + 1) none fuel).1,
       (runAux env (n + 1) none fuel).2) := by
  constructor <;> simp [runAux, budgetAllows, hs, hj, hi]

theorem run_empty_backlog_branches_witness :
    (envEmpty.stop 0 = false ∧ envEmpty.nextJob 0 = none ∧ 0 < 5) ∧
    (runAux envEmpty 0 (some 5) 1 =
        ([Event.checkStop false, Event.claim (some 5) none], ExitReason.noWork) ∧
      runAux envEmpty 0 none 1 =
        (Event.checkStop false :: Event.claim none none :: Event.sleep ::
          (runAux envEmpty 1 none 0).1,
         (runAux envEmpty 1 none 0).2)) :=
  ⟨⟨by decide, by decide, by decide⟩,
    run_empty_backlog_branches envEmpty 0 0 5 (by decide) (by decide) (by decide)⟩

lemma claimBudgets_replicate_sleep {JobId Artifacts : Type} (d : Nat)
    (l : List (Event JobId Artifacts)) :
    claimBudgets (List.replicate d Event.sleep ++ l) = claimBudgets l := by
  induction d with
  | zero => rfl
  | succ k ih => simp [List.replicate_succ, claimBudgets, ih]

lemma claimBudgets_wait_for_task {JobId Artifacts : Type} (job_id : JobId) (d : Nat)
    (r : Except String Artifacts) (l : List (Event JobId Artifacts)) :
    claimBudgets (wait_for_task job_id d r ++ l) = claimBudgets l := by
  unfold wait_for_task
  cases r <;> simp [List.append_assoc, claimBudgets_replicate_sleep, claimBudgets]

lemma range_map_budget_succ (N : Nat) :
    (List.range (N + 1)).map (fun k => some (N + 1 - k)) =
      some (N + 1) :: (List.range N).map (fun k => (some (N - k) : Option Nat)) := by
  rw [List.range_succ_eq_map]
  simp [List.map_map, Function.comp, Nat.succ_sub_succ]

lemma runAux_fixed_budget_always_jobs {JobId Job Artifacts : Type}
    (env : Env JobId Job Artifacts)
    (hstop : ∀ m, env.stop m = false) (hjob : ∀ m, (env.nextJob m).isSome = true) :
    ∀ (N n fuel : Nat), N < fuel →
      (runAux env n (some N) fuel).1.countP isDispatch = N ∧
      (runAux env n (some N) fuel).2 = ExitReason.budgetExhausted ∧
      claimBudgets (runAux env n (some N) fuel).1 =
        (List.range N).map (fun k => some (N - k)) := by
  intro N
  induction N with
  | zero =>
    intro n fuel hf
    cases fuel with
    | zero => omega
    | succ f => simp [runAux, budgetAllows, claimBudgets]
  | succ N ih =>
    intro n fuel hf
    cases fuel with
    | zero => omega
    | succ f =>
      obtain ⟨⟨job_id, job⟩, hj⟩ := Option.isSome_iff_exists.mp (hjob n)
      obtain ⟨ih1, ih2, ih3⟩ := ih (n + 1) f (by omega)
      have hb : budgetAllows (some (N + 1)) = true := by simp [budgetAllows]
      refine ⟨?_, ?_, ?_⟩ <;>
        simp only [runAux, hb, hstop n, hj, if_true, if_false, Bool.false_eq_true,
          Option.map_some, Nat.add_sub_cancel]
      · simp [List.countP_cons, List.countP_append, isDispatch,
          countP_isDispatch_wait_for_task, ih1]
      · exact ih2
      · simp [claimBudgets, claimBudgets_wait_for_task, ih3, range_map_budget_succ]

lemma runAux_claim_budget_allows {JobId Job Artifacts : Type}
    (env : Env JobId Job Artifacts) :
    ∀ (fuel n : Nat) (il b : Option Nat) (r : Option JobId),
      Event.claim b r ∈ (runAux env n il fuel).1 → budgetAllows b = true := by
  intro fuel
  induction fuel with
  | zero => intro n il b r h; simp [runAux] at h
  | succ f ih =>
    intro n il b r h
    by_cases hb : budgetAllows il
    · by_cases hs : env.stop n
      · simp [runAux, hb, hs] at h
      · rcases hj : env.nextJob n with _ | ⟨job_id, job⟩
        · by_cases hsome : il.isSome
          · simp [runAux, hb, hs, hj, hsome] at h
            exact h.1 ▸ hb
          · simp [runAux, hb, hs, hj, hsome] at h
            rcases h with ⟨hbil, _⟩ | h
            · exact hbil ▸ hb
            · exact ih (n + 1) il b r h
        · simp [runAux, hb, hs, hj] at h
          rcases h with ⟨hbil, _⟩ | h | h
          · exact hbil ▸ hb
          · exact absurd h claim_not_mem_wait_for_task
          · exact ih (n + 1) (il.map (· - 1)) b r h
    · simp [runAux, hb] at h

lemma runAux_unbounded_exit {JobId Job Artifacts : Type} (env : Env JobId Job Artifacts) :
    ∀ (fuel n : Nat),
      (runAux env n none fuel).2 ≠ ExitReason.noWork ∧
      (runAux env n none fuel).2 ≠ ExitReason.budgetExhausted ∧
      ((runAux env n none fuel).2 = ExitReason.stopSignal →
        ∃ m, n ≤ m ∧ env.stop m = true) := by
  intro fuel
  induction fuel with
  | zero =>
    intro n
    refine ⟨by simp [runAux], by simp [runAux], ?_⟩
    simp [runAux]
  | succ f ih =>
    intro n
    by_cases hs : env.stop n
    · have heq : (runAux env n none (f + 1)).2 = ExitReason.stopSignal := by
        simp [runAux, budgetAllows, hs]
      rw [heq]
      exact ⟨by simp, by simp, fun _ => ⟨n, Nat.le_refl n, hs⟩⟩
    · rcases hj : env.nextJob n with _ | ⟨job_id, job⟩
      · have heq : (runAux env n none (f + 1)).2 = (runAux env (n + 1) none f).2 := by
          simp [runAux, budgetAllows, hs, hj]
        obtain ⟨h1, h2, h3⟩ := ih (n + 1)
        rw [heq]
        refine ⟨h1, h2, fun hx => ?_⟩
        obtain ⟨m, hm, hsm⟩ := h3 hx
        exact ⟨m, Nat.le_trans (Nat.le_succ n) hm, hsm⟩
      · have heq : (runAux env n none (f + 1)).2 = (runAux env (n + 1) none f).2 := by
          simp [runAux, budgetAllows, hs, hj]
        obtain ⟨h1, h2, h3⟩ := ih (n + 1)
        rw [heq]
        refine ⟨h1, h2, fun hx => ?_⟩
        obtain ⟨m, hm, hsm⟩ := h3 hx
        exact ⟨m, Nat.le_trans (Nat.le_succ n) hm, hsm⟩

/-- Claim C3: an abnormal task termination (panic) is contained at the
per-job boundary: when the task of the job claimed at iteration `n` fails
with extracted message `msg`, the loop records exactly that message via
`save_failure` for that job id, the iteration's trace is the dispatch
followed by the supervision events and then the next iteration's trace, and
the run's exit reason is exactly that of the continuation — the fault never
terminates or alters the rest of the loop. -/
theorem run_panic_contained {JobId Job Artifacts : Type} (env : Env JobId Job Artifacts)
    (n fuel : Nat) (il : Option Nat) (job_id : JobId) (job : Job) (msg : String)
    (hb : budgetAllows il = true) (hs : env.stop n = false)
    (hj : env.nextJob n = some (job_id, job)) (hr : env.taskResult n = .error msg) :
    Event.saveFailure job_id msg ∈ (runAux env n il (fuel + 1)).1 ∧
    (runAux env n il (fuel + 1)).1 =
      Event.checkStop false :: Event.claim il (some job_id) ::
        (wait_for_task job_id (env.finishDelay n) (Except.error msg) ++
          (runAux env (n + 1) (il.map (· - 1)) fuel).1) ∧
    (runAux env n il (fuel + 1)).2 = (runAux env (n + 1) (il.map (· - 1)) fuel).2 := by
  have htr : (runAux env n il (fuel + 1)).1 =
      Event.checkStop false :: Event.claim il (some job_id) ::
        (wait_for_task job_id (env.finishDelay n) (Except.error msg) ++
          (runAux env (n + 1) (il.map (· - 1)) fuel).1) := by
    simp [runAux, hb, hs, hj, hr]
  refine ⟨?_, htr, by simp [runAux, hb, hs, hj]⟩
  rw [htr]
  simp [wait_for_task]

theorem run_panic_contained_witness :
    Event.saveFailure 0 "boom" ∈ (runAux envPanics 0 none 1).1 :=
  (run_panic_contained envPanics 0 0 none 0 () "boom" rfl rfl rfl rfl).1

/-- Claim C5: the budget is decremented by exactly one at each dispatch and
never on an empty poll: with stop never set and a backlog that always has a
claimable job, a run with fixed budget `N` performs exactly `N` claims —
the budgets recorded at the successive `get_next_job` calls are
`N, N-1, …, 1` — and then returns through the budget-exhaustion exit. -/
theorem run_fixed_budget_exactly_N_claims {JobId Job Artifacts : Type}
    (env : Env JobId Job Artifacts) (N fuel : Nat)
    (hstop : ∀ m, env.stop m = false) (hjob : ∀ m, (env.nextJob m).isSome = true)
    (hf : N < fuel) :
    (run env (some N) fuel).1.countP isDispatch = N ∧
    (run env (some N) fuel).2 = ExitReason.budgetExhausted ∧
    claimBudgets (run env (some N) fuel).1 =
      (List.range N).map (fun k => some (N - k)) :=
  runAux_fixed_budget_always_jobs env hstop hjob N 0 fuel hf

theorem run_fixed_budget_exactly_N_claims_witness :
    (run envAlwaysJobs (some 2) 3).1.countP isDispatch = 2 :=
  (run_fixed_budget_exactly_N_claims envAlwaysJobs 2 3 (fun _ => rfl) (fun _ => rfl)
    (by decide)).1

/-- Claim C9: the `usize` decrement `iterations_left.map(|i| i - 1)` never
underflows: the budget recorded at any `get_next_job` call of any trace
satisfies the loop guard, so it is never `some 0` — whenever it is `some i`
and about to be decremented, `i > 0`. -/
theorem run_budget_decrement_never_underflows {JobId Job Artifacts : Type}
    (env : Env JobId Job Artifacts) (il : Option Nat) (fuel : Nat)
    (b : Option Nat) (r : Option JobId)
    (h : Event.claim b r ∈ (run env il fuel).1) :
    budgetAllows b = true ∧ b ≠ some 0 := by
  have hb := runAux_claim_budget_allows env fuel 0 il b r h
  refine ⟨hb, fun hc => ?_⟩
  rw [hc] at hb
  simp [budgetAllows] at hb

theorem run_budget_decrement_never_underflows_witness :
    budgetAllows (some 2) = true ∧ (some 2 : Option Nat) ≠ some 0 :=
  run_budget_decrement_never_underflows envAlwaysJobs (some 2) 3 (some 2) (some 0)
    (by decide)

/-- Claim C10: an unbounded run (`iterations_left = none`) can only return
by observing the stop signal: its exit reason is never `noWork` (an empty
backlog makes it sleep and retry instead) and never `budgetExhausted`, and
whenever it is `stopSignal` the environment's stop signal was indeed read
true at some iteration checkpoint. -/
theorem run_unbounded_stops_only_on_signal {JobId Job Artifacts : Type}
    (env : Env JobId Job Artifacts) (il : Option Nat) (fuel : Nat) (h : il = none) :
    (run env il fuel).2 ≠ ExitReason.noWork ∧
    (run env il fuel).2 ≠ ExitReason.budgetExhausted ∧
    ((run env il fuel).2 = ExitReason.stopSignal → ∃ m, env.stop m = true) := by
  subst h
  obtain ⟨h1, h2, h3⟩ := runAux_unbounded_exit env fuel 0
  exact ⟨h1, h2, fun hx => (h3 hx).imp fun m hm => hm.2⟩

theorem run_unbounded_stops_only_on_signal_witness :
    (run envStopped none 1).2 ≠ ExitReason.noWork :=
  (run_unbounded_stops_only_on_signal envStopped none 1 rfl).1

end QueuedJobProcessor
